import Mathlib

set_option autoImplicit false
set_option maxRecDepth 100000

/-!
Verification of the entity-resolution core of the kliq-growth-engine
repository: a shallow embedding of `app/scrapers/base.py` and
`app/scrapers/discovery.py`, followed by theorems that settle the claims
about the Identity Resolver, the Enrichment Walker and the Ranking step.

Conventions of the embedding:
* Python `str` values are Lean `String`s; the string operations used by the
  code (`lower`, `strip`, `split`, truthiness, `or`-defaulting) are spelled
  out over `String.data` so that every definition evaluates by kernel
  reduction.  `lower` is modelled for the ASCII range, which covers every
  input of interest here.
* Python dicts are association lists in key-insertion order; `dict.update`
  and dict lookup are modelled explicitly (`dictUpdate`, `dictGet`) with
  the exact "replace value in place, append new keys" semantics.
* `async` functions have no concurrency visible to the resolver (the code
  awaits each call in sequence), so they are embedded as plain functions;
  fallible adapter calls return `Except`.
* Python `int` counters are modelled as `Nat` (the scraped audience counts
  are non-negative).
-/

-- ## Python string semantics helpers

-- Python truthiness of `Optional[str]`: `None` and `""` are falsy.
def optTruthy : Option String → Bool
  | some s => s != ""
  | none => false

-- Python `x or default` for `Optional[str]` (falsy values fall through).
def pyOr (o : Option String) (dflt : String) : String :=
  match o with
  | some s => if s = "" then dflt else s
  | none => dflt

-- Python `str.lower()` (ASCII range, via `Char.toLower`).
def pyLower (s : String) : String :=
  String.mk (s.data.map Char.toLower)

-- Python `str.strip()`: drop whitespace from both ends.
def pyStrip (s : String) : String :=
  String.mk (((s.data.dropWhile Char.isWhitespace).reverse.dropWhile Char.isWhitespace).reverse)

-- Python `str.split(sep)` for a one-character separator (used as `link.split("/")`).
def pySplitChar (sep : Char) (cs : List Char) : List (List Char) :=
  match cs with
  | [] => [[]]
  | c :: rest =>
    let tail := pySplitChar sep rest
    if c = sep then [] :: tail
    else
      match tail with
      | [] => [[c]]
      | t :: ts => (c :: t) :: ts

-- ## Normalized data model (`app/scrapers/base.py`)

-- `class Platform(str, Enum)`.
inductive Platform where
  | youtube
  | skool
  | patreon
  | website
  | tiktok
  | instagram
deriving DecidableEq, Repr

-- The `.value` of each enum member.
def Platform.value : Platform → String
  | .youtube => "youtube"
  | .skool => "skool"
  | .patreon => "patreon"
  | .website => "website"
  | .tiktok => "tiktok"
  | .instagram => "instagram"

-- `@dataclass ScrapedProfile` — an immutable snapshot from one source.
-- `social_links : dict` is an association list in key order; `raw_data` is
-- an opaque payload not inspected by the resolution core and is omitted.
structure ScrapedProfile where
  platform : Platform
  platform_id : String
  name : String
  bio : String := ""
  profile_image_url : String := ""
  banner_image_url : String := ""
  email : Option String := none
  website_url : Option String := none
  social_links : List (String × String) := []
  follower_count : Nat := 0
  subscriber_count : Nat := 0
  member_count : Nat := 0
  niche_tags : List String := []
  location : Option String := none
  brand_colors : List String := []
deriving DecidableEq, Repr

-- `@dataclass ScrapedContent`.  The orchestrator only carries these values
-- through lists and never reads a field, so the trailing metadata fields
-- (`media_urls`, `published_at`, counts, `tags`, `raw_data`) are elided.
structure ScrapedContent where
  platform : Platform
  platform_id : String
  content_type : String
  title : String := ""
  description : String := ""
  body : String := ""
  url : String := ""
deriving DecidableEq, Repr

-- `@dataclass ScrapedPricing`.  Only carried through lists, never read;
-- `price_amount` is a Python float, represented opaquely here.
structure ScrapedPricing where
  platform : Platform
  platform_id : String
  tier_name : String
  price_amount : Nat := 0
  currency : String := "USD"
  interval : String := "month"
deriving DecidableEq, Repr

-- Failure of an adapter call: `NotImplementedError` (capability stubbed)
-- or any other exception (network, parse, not-found, ...).  The discovery
-- orchestrator catches both kinds and skips.
inductive AdapterError where
  | notImplemented
  | failure (msg : String)
deriving DecidableEq, Repr

-- `class PlatformAdapter(ABC)`: the capability set of one source.
structure PlatformAdapter where
  platform : Platform
  discover_coaches : List String → Nat → Except AdapterError (List ScrapedProfile)
  scrape_profile : String → Except AdapterError ScrapedProfile
  scrape_content : String → Except AdapterError (List ScrapedContent)
  scrape_pricing : String → Except AdapterError (List ScrapedPricing)

-- ## Default `extract_email` capability (`PlatformAdapter.extract_email`)
-- Embeds `re.search(r"[a-zA-Z0-9._%+-]+@[a-zA-Z0-9.-]+\.[a-zA-Z]{2,}", bio)`:
-- leftmost match, greedy quantifiers with backtracking, exactly this pattern.

def isEmailLocalChar (c : Char) : Bool :=
  c.isAlpha || c.isDigit || c = '.' || c = '_' || c = '%' || c = '+' || c = '-'

def isEmailDomainChar (c : Char) : Bool :=
  c.isAlpha || c.isDigit || c = '.' || c = '-'

-- Backtracking for `[a-zA-Z0-9.-]+\.[a-zA-Z]{2,}` inside the maximal
-- domain-class run: the greedy engine commits to the rightmost dot that is
-- preceded by a non-empty domain part and followed by at least two letters;
-- `{2,}` then greedily takes the whole letter run.
def emailDomainSplit (pre rest : List Char) (best : Option (List Char)) : Option (List Char) :=
  match rest with
  | [] => best
  | c :: rs =>
    let alphaRun := rs.takeWhile Char.isAlpha
    let best2 :=
      if c = '.' && !pre.isEmpty && decide (2 ≤ alphaRun.length) then
        some (pre ++ '.' :: alphaRun)
      else best
    emailDomainSplit (pre ++ [c]) rs best2

-- One attempt of the pattern anchored at the head of `cs`.
def matchEmailAt (cs : List Char) : Option (List Char) :=
  let loc := cs.takeWhile isEmailLocalChar
  if loc.isEmpty then none
  else
    match cs.dropWhile isEmailLocalChar with
    | '@' :: rest =>
      let dom := rest.takeWhile isEmailDomainChar
      match emailDomainSplit [] dom none with
      | some d => some (loc ++ '@' :: d)
      | none => none
    | _ => none

-- `re.search`: try each start position from the left, first match wins.
def searchEmail : List Char → Option (List Char)
  | [] => none
  | c :: rest =>
    match matchEmailAt (c :: rest) with
    | some m => some m
    | none => searchEmail rest

-- Default implementation of `PlatformAdapter.extract_email`: scan the bio
-- if it is truthy, return the first email-shaped match.
def PlatformAdapter.extract_email (profile : ScrapedProfile) : Option String :=
  if profile.bio != "" then (searchEmail profile.bio.data).map String.mk
  else none

-- ## `difflib.SequenceMatcher(None, a, b).ratio()`
-- Ratcliff-Obershelp: twice the total size of the recursively chosen
-- matching blocks over the summed lengths.  The names compared by the
-- resolver are far shorter than 200 characters, so the autojunk heuristic
-- of difflib never fires and is not modelled.

-- Length of the common run starting at the heads of both lists.
def commonRun : List Char → List Char → Nat
  | a :: as, b :: bs => if a = b then commonRun as bs + 1 else 0
  | _, _ => 0

def runAt (a b : List Char) (i j : Nat) : Nat := commonRun (a.drop i) (b.drop j)

def maxRun (a b : List Char) : Nat :=
  (List.range a.length).foldl (fun m i =>
    (List.range b.length).foldl (fun m2 j => max m2 (runAt a b i j)) m) 0

-- `find_longest_match` tie-breaking: among blocks of maximal size, the
-- smallest start in `a`, then the smallest start in `b`.
def findBestMatch (a b : List Char) (k : Nat) : Option (Nat × Nat) :=
  (List.range a.length).findSome? (fun i =>
    ((List.range b.length).find? (fun j => runAt a b i j == k)).map (fun j => (i, j)))

-- `get_matching_blocks` recursion, summing only the matched sizes.  Each
-- recursive call strictly shortens the first list, so `a.length` bounds the
-- recursion depth and the fuel below is never exhausted.
def matchTotalFuel : Nat → List Char → List Char → Nat
  | 0, _, _ => 0
  | fuel+1, a, b =>
    let k := maxRun a b
    if k = 0 then 0
    else
      match findBestMatch a b k with
      | some (i, j) =>
        matchTotalFuel fuel (a.take i) (b.take j) + k +
          matchTotalFuel fuel (a.drop (i + k)) (b.drop (j + k))
      | none => 0

def matchTotal (a b : List Char) : Nat := matchTotalFuel a.length a b

-- `ratio() >= NAME_SIMILARITY_THRESHOLD` with threshold 0.85, compared as
-- exact rationals: 2*M/T >= 85/100 iff 40*M >= 17*T.  For T = 0 difflib
-- defines the ratio as 1.0, and the inequality is likewise true.  For the
-- short name strings compared here the exact comparison agrees with the
-- float comparison in the source.
def ratioGeThreshold (a b : String) : Bool :=
  let t := a.data.length + b.data.length
  decide (17 * t ≤ 40 * matchTotal a.data b.data)

-- ## Python dict semantics (key-insertion-ordered association lists)

-- `d[k] = v`: replace in place if the key exists, else append.
def dictInsert : List (String × String) → String → String → List (String × String)
  | [], k, v => [(k, v)]
  | kv :: rest, k, v => if kv.1 = k then (k, v) :: rest else kv :: dictInsert rest k v

-- `d.update(src)`.
def dictUpdate (d src : List (String × String)) : List (String × String) :=
  src.foldl (fun acc kv => dictInsert acc kv.1 kv.2) d

-- `d.get(k)` / `k in d`.
def dictGet (d : List (String × String)) (k : String) : Option String :=
  (d.find? (fun kv => kv.1 == k)).map (fun kv => kv.2)

-- ## `EnrichedProspect` (`app/scrapers/discovery.py`)

structure EnrichedProspect where
  primary_profile : ScrapedProfile
  platform_profiles : List ScrapedProfile := []
  all_content : List ScrapedContent := []
  all_pricing : List ScrapedPricing := []
  email : Option String := none
  first_name : Option String := none
  last_name : Option String := none
deriving DecidableEq, Repr

-- `name` property.
def EnrichedProspect.name (p : EnrichedProspect) : String := p.primary_profile.name

-- `bio` property: `max(bios, key=len)`; Python `max` keeps the first
-- element among ties, and the list always contains the primary bio.
def EnrichedProspect.bio (p : EnrichedProspect) : String :=
  (p.platform_profiles.map ScrapedProfile.bio).foldl
    (fun best b => if best.data.length < b.data.length then b else best)
    p.primary_profile.bio

-- `social_links` property: a fresh dict built by `merged.update(...)` over
-- the primary profile followed by each secondary in merge order.
def EnrichedProspect.social_links (p : EnrichedProspect) : List (String × String) :=
  (p.primary_profile :: p.platform_profiles).foldl
    (fun merged profile => dictUpdate merged profile.social_links) []

-- `brand_colors` property: first profile with a non-empty palette.
def EnrichedProspect.brand_colors (p : EnrichedProspect) : List String :=
  match (p.primary_profile :: p.platform_profiles).find?
      (fun q => !q.brand_colors.isEmpty) with
  | some q => q.brand_colors
  | none => []

-- `total_followers` property.  Transcribed exactly from the source: the
-- primary profile contributes `follower_count + subscriber_count` only,
-- while each secondary also contributes its `member_count`.
def EnrichedProspect.total_followers (p : EnrichedProspect) : Nat :=
  p.platform_profiles.foldl
    (fun total q => total + (q.follower_count + q.subscriber_count + q.member_count))
    (p.primary_profile.follower_count + p.primary_profile.subscriber_count)

-- ## DiscoveryOrchestrator

namespace DiscoveryOrchestrator

-- `NAME_SIMILARITY_THRESHOLD = 0.85` is baked into `ratioGeThreshold`.

-- `self.adapters = {a.platform: a for a in adapters}`: a dict keyed by
-- `Platform`; a later adapter for the same platform replaces the earlier
-- one in place, and iteration follows key-insertion order.
def buildRegistry (adapters : List PlatformAdapter) : List (Platform × PlatformAdapter) :=
  adapters.foldl
    (fun acc a =>
      if acc.any (fun kv => kv.1 = a.platform) then
        acc.map (fun kv => if kv.1 = a.platform then (kv.1, a) else kv)
      else acc ++ [(a.platform, a)])
    []

-- `_split_name`: `name.strip().split(None, 1)`.
def split_name (nm : String) : Option String × Option String :=
  let cs := (pyStrip nm).data
  let tok := cs.takeWhile (fun c => !c.isWhitespace)
  let rest := (cs.dropWhile (fun c => !c.isWhitespace)).dropWhile Char.isWhitespace
  if tok.isEmpty then (none, none)
  else if rest.isEmpty then (some (String.mk tok), none)
  else (some (String.mk tok), some (String.mk rest))

-- The entity created when a record matches nothing (`EnrichedProspect(...)`
-- at the end of `_deduplicate_and_enrich`).
def newProspect (profile : ScrapedProfile) : EnrichedProspect :=
  { primary_profile := profile
    platform_profiles := []
    all_content := []
    all_pricing := []
    email := profile.email
    first_name := (split_name profile.name).1
    last_name := (split_name profile.name).2 }

-- `_merge_into_existing` with `by="email"`: the per-prospect test.
def emailCond (p : EnrichedProspect) (value : String) : Bool :=
  match p.email with
  | some e => e != "" && pyLower e == value
  | none => false

-- `_merge_into_existing` with `by="url"`: the website list of a prospect
-- (primary first, then secondaries, `None` defaulted to `""`).
def prospectUrls (p : EnrichedProspect) : List String :=
  pyOr p.primary_profile.website_url "" ::
    p.platform_profiles.map (fun q => pyOr q.website_url "")

def urlCond (p : EnrichedProspect) (value : String) : Bool :=
  (prospectUrls p).any (fun u => u != "" && pyLower u == value)

-- The per-prospect test of `_merge_into_existing` for the selected rule
-- (`by="email"` or `by="url"`).
def mergeCond (byEmail : Bool) (p : EnrichedProspect) (value : String) : Bool :=
  if byEmail then emailCond p value else urlCond p value

-- `_merge_into_existing`: append the profile to the first prospect that
-- passes the test for the given rule; if none does, the profile is
-- silently dropped (the loop falls through without appending).
def mergeIntoExisting
    (ps : List EnrichedProspect) (profile : ScrapedProfile)
    (byEmail : Bool) (value : String) : List EnrichedProspect :=
  match ps with
  | [] => []
  | p :: rest =>
    if mergeCond byEmail p value then
      { p with platform_profiles := p.platform_profiles ++ [profile] } :: rest
    else p :: mergeIntoExisting rest profile byEmail value

-- `_find_fuzzy_name_match`, returning the index of the first prospect whose
-- normalized primary name is similar enough (the source returns the object
-- and mutates it; the index identifies the same prospect).
def find_fuzzy_name_match_idx (ps : List EnrichedProspect) (nameKey : String) : Option Nat :=
  match ps with
  | [] => none
  | p :: rest =>
    if ratioGeThreshold nameKey (pyStrip (pyLower p.primary_profile.name)) then some 0
    else (find_fuzzy_name_match_idx rest nameKey).map (· + 1)

-- In-place mutation of the i-th prospect of the list.
def updateAt (ps : List EnrichedProspect) (i : Nat)
    (f : EnrichedProspect → EnrichedProspect) : List EnrichedProspect :=
  match ps, i with
  | [], _ => []
  | p :: rest, 0 => f p :: rest
  | p :: rest, n + 1 => p :: updateAt rest n f

-- The fuzzy-match mutation: `existing.platform_profiles.append(profile)`
-- then `if email and not existing.email: existing.email = email`.  The
-- append leaves `existing.email` unchanged, so the truthiness test reads
-- the same value before and after it and the two updates commute.
def fuzzyApply (profile : ScrapedProfile) (p : EnrichedProspect) : EnrichedProspect :=
  if optTruthy profile.email && !optTruthy p.email then
    { p with platform_profiles := p.platform_profiles ++ [profile], email := profile.email }
  else
    { p with platform_profiles := p.platform_profiles ++ [profile] }

-- The mutable state of one `_deduplicate_and_enrich` run.
structure DedupState where
  prospects : List EnrichedProspect
  seenEmails : List String
  seenUrls : List String
deriving DecidableEq, Repr

-- One iteration of the `for profile in profiles` loop of
-- `_deduplicate_and_enrich`.  In the source, `email = profile.email` and
-- `url_key = profile.website_url or ""`; both are written out inline here.
def dedupStep (st : DedupState) (profile : ScrapedProfile) : DedupState :=
  if optTruthy profile.email
      && st.seenEmails.contains (pyLower (profile.email.getD "")) then
    { st with prospects :=
        mergeIntoExisting st.prospects profile true (pyLower (profile.email.getD "")) }
  else if pyOr profile.website_url "" != ""
      && st.seenUrls.contains (pyLower (pyOr profile.website_url "")) then
    { st with prospects :=
        mergeIntoExisting st.prospects profile false (pyLower (pyOr profile.website_url "")) }
  else
    match find_fuzzy_name_match_idx st.prospects (pyStrip (pyLower profile.name)) with
    | some i => { st with prospects := updateAt st.prospects i (fuzzyApply profile) }
    | none =>
      { prospects := st.prospects ++ [newProspect profile]
        seenEmails :=
          if optTruthy profile.email then
            st.seenEmails ++ [pyLower (profile.email.getD "")]
          else st.seenEmails
        seenUrls :=
          if pyOr profile.website_url "" != "" then
            st.seenUrls ++ [pyLower (pyOr profile.website_url "")]
          else st.seenUrls }

-- `_deduplicate_and_enrich` (despite its name it performs deduplication
-- only; it never invokes `_cross_platform_enrich`).
def deduplicate_and_enrich (profiles : List ScrapedProfile) : List EnrichedProspect :=
  (profiles.foldl dedupStep ⟨[], [], []⟩).prospects

-- ## Ranking (`prospects.sort(key=..., reverse=True)`)

-- The sort key `(p.email is not None, p.total_followers)`, with the bool
-- encoded as 0/1 so the Python tuple order is the lexicographic order.
def keyNat (p : EnrichedProspect) : Nat × Nat :=
  (if p.email.isSome then 1 else 0, p.total_followers)

def keyLt (a b : Nat × Nat) : Prop := a.1 < b.1 ∨ (a.1 = b.1 ∧ a.2 < b.2)

instance (a b : Nat × Nat) : Decidable (keyLt a b) := by
  unfold keyLt; infer_instance

-- `list.sort(key, reverse=True)` is the unique stable descending sort;
-- modelled as stable insertion: a new element goes after every element
-- whose key is not strictly smaller.
def insertDesc (x : EnrichedProspect) (l : List EnrichedProspect) : List EnrichedProspect :=
  match l with
  | [] => [x]
  | y :: ys => if keyLt (keyNat y) (keyNat x) then x :: y :: ys else y :: insertDesc x ys

def sortByQualityDesc (l : List EnrichedProspect) : List EnrichedProspect :=
  l.foldl (fun acc x => insertDesc x acc) []

-- ## `discover` — the batch entry point

-- The spec names an `InvalidInput` error for the entry point; the source
-- has no such exception, so the embedding gives `discover` an `Except`
-- result type in which such a failure could be expressed.
inductive DiscoveryError where
  | invalidInput
deriving DecidableEq, Repr

-- `target_adapters`: `platforms` is `None = all`; an empty list is falsy
-- in Python and also selects all adapters.
def targetRegistry (registry : List (Platform × PlatformAdapter))
    (platforms : Option (List String)) : List (Platform × PlatformAdapter) :=
  match platforms with
  | some ps => if ps.isEmpty then registry else registry.filter (fun kv => ps.contains kv.1.value)
  | none => registry

-- The per-adapter discovery loop: failures (including
-- `NotImplementedError`) are logged and skipped.
def gatherProfiles (registry : List (Platform × PlatformAdapter))
    (queries : List String) (maxPer : Nat) : List ScrapedProfile :=
  registry.foldl
    (fun acc kv =>
      match kv.2.discover_coaches queries maxPer with
      | .ok profiles => acc ++ profiles
      | .error _ => acc)
    []

-- `DiscoveryOrchestrator.discover`.
def discover (adapters : List PlatformAdapter) (search_queries : List String)
    (platforms : Option (List String)) (max_per_platform : Nat) :
    Except DiscoveryError (List EnrichedProspect) :=
  let registry := buildRegistry adapters
  let tgt := targetRegistry registry platforms
  let all_profiles := gatherProfiles tgt search_queries max_per_platform
  let prospects := deduplicate_and_enrich all_profiles
  .ok (sortByQualityDesc prospects)

-- ## `_cross_platform_enrich` — the Enrichment Walker

-- Adapter lookup by platform name string (`p.value == platform_name`).
def findAdapterByName (registry : List (Platform × PlatformAdapter))
    (nm : String) : Option PlatformAdapter :=
  (registry.find? (fun kv => kv.1.value == nm)).map (fun kv => kv.2)

-- `platform_id = link.split("/")[-1].lstrip("@")`.
def extractPlatformId (link : String) : String :=
  String.mk (((pySplitChar '/' link.data).getLastD []).dropWhile (fun c => c = '@'))

-- The successful-fetch mutation of the enrichment loop body: append the
-- fetched profile/content/pricing, then
-- `if not prospect.email and profile.email: prospect.email = profile.email`
-- (the appends leave `prospect.email` unchanged, so the truthiness test
-- reads the same value before and after them).
def enrichMerge (prospect : EnrichedProspect) (profile : ScrapedProfile)
    (content : List ScrapedContent) (pricing : List ScrapedPricing) : EnrichedProspect :=
  if !optTruthy prospect.email && optTruthy profile.email then
    { prospect with
      platform_profiles := prospect.platform_profiles ++ [profile]
      all_content := prospect.all_content ++ content
      all_pricing := prospect.all_pricing ++ pricing
      email := profile.email }
  else
    { prospect with
      platform_profiles := prospect.platform_profiles ++ [profile]
      all_content := prospect.all_content ++ content
      all_pricing := prospect.all_pricing ++ pricing }

-- One iteration of the `for platform_name, link in social.items()` loop.
-- The second component is a ghost trace listing every
-- `(platform_name, platform_id)` for which `scrape_profile` is invoked;
-- it instruments the embedding and has no counterpart in the state.
def enrichStep (registry : List (Platform × PlatformAdapter))
    (st : EnrichedProspect × List (String × String))
    (kv : String × String) : EnrichedProspect × List (String × String) :=
  match findAdapterByName registry kv.1 with
  | none => st
  | some adapter =>
    match adapter.scrape_profile (extractPlatformId kv.2) with
    | .error _ => (st.1, st.2 ++ [(kv.1, extractPlatformId kv.2)])
    | .ok profile =>
      match adapter.scrape_content (extractPlatformId kv.2) with
      | .error _ => (st.1, st.2 ++ [(kv.1, extractPlatformId kv.2)])
      | .ok content =>
        match adapter.scrape_pricing (extractPlatformId kv.2) with
        | .error _ => (st.1, st.2 ++ [(kv.1, extractPlatformId kv.2)])
        | .ok pricing =>
          (enrichMerge st.1 profile content pricing,
            st.2 ++ [(kv.1, extractPlatformId kv.2)])

-- `_cross_platform_enrich` with its fetch trace.  `social` is computed
-- once, before the loop: the iteration never sees references added by the
-- records it merges.
def cross_platform_enrichTr (registry : List (Platform × PlatformAdapter))
    (prospect : EnrichedProspect) : EnrichedProspect × List (String × String) :=
  (EnrichedProspect.social_links prospect).foldl (enrichStep registry) (prospect, [])

def cross_platform_enrich (registry : List (Platform × PlatformAdapter))
    (prospect : EnrichedProspect) : EnrichedProspect :=
  (cross_platform_enrichTr registry prospect).1

end DiscoveryOrchestrator

-- ## Definitions taken from the wording of the spec (for comparison only)

-- Modelled from the spec: "a resolved audience size (sum of all per-record
-- audience metrics)" / "the summed follower/subscriber/member counts across
-- all SourceRecords merged into an entity".
def specResolvedAudienceSize (p : EnrichedProspect) : Nat :=
  ((p.primary_profile :: p.platform_profiles).map
    (fun q => q.follower_count + q.subscriber_count + q.member_count)).sum

-- Modelled from the spec: "scheme-normalized equality" of websites — the
-- natural reading strips a leading `http://` or `https://` scheme.
def specSchemeNormalize (url : String) : String :=
  let cs := (pyLower url).data
  if cs.take 8 = "https://".data then String.mk (cs.drop 8)
  else if cs.take 7 = "http://".data then String.mk (cs.drop 7)
  else String.mk cs

-- ## Derived definitions used by the verification

-- The last value stored for a key in a raw key/value sequence (in a Python
-- dict source each key occurs once, so this is simply its value).
def lastVal : List (String × String) → String → Option String
  | [], _ => none
  | kv :: rest, k =>
    match lastVal rest k with
    | some v => some v
    | none => if kv.1 = k then some kv.2 else none

namespace DiscoveryOrchestrator

-- All SourceRecords held by one entity: the primary and the secondaries.
def recordsOf (p : EnrichedProspect) : List ScrapedProfile :=
  p.primary_profile :: p.platform_profiles

-- All SourceRecords held across an entity list, with multiplicity.
def allRecords (ps : List EnrichedProspect) : Multiset ScrapedProfile :=
  (ps.map (fun p => (↑(recordsOf p) : Multiset ScrapedProfile))).sum

-- Every email in `seen_emails` (resp. every url in `seen_urls`) is matched
-- by some prospect of the current list: both sets only receive entries at
-- entity-creation time, and the created entity carries that email/website.
def StateInv (st : DedupState) : Prop :=
  (∀ e ∈ st.seenEmails, ∃ p ∈ st.prospects, emailCond p e = true) ∧
  (∀ u ∈ st.seenUrls, ∃ p ∈ st.prospects, urlCond p u = true)

instance (st : DedupState) : Decidable (StateInv st) := by
  unfold StateInv
  infer_instance

end DiscoveryOrchestrator

-- ## Concrete inputs used by the per-claim theorems

open DiscoveryOrchestrator

-- C1: one YouTube adapter returning a profile that references a Skool
-- group for which a second adapter is registered.
def c1SkoolProfile : ScrapedProfile :=
  { platform := .skool, platform_id := "grp", name := "ab", email := some "j@x.com" }

def c1YtProfile : ScrapedProfile :=
  { platform := .youtube, platform_id := "chan", name := "ab",
    social_links := [("skool", "skool.com/grp")] }

def c1AdYoutube : PlatformAdapter :=
  { platform := .youtube
    discover_coaches := fun _ _ => .ok [c1YtProfile]
    scrape_profile := fun _ => .error .notImplemented
    scrape_content := fun _ => .error .notImplemented
    scrape_pricing := fun _ => .error .notImplemented }

def c1AdSkool : PlatformAdapter :=
  { platform := .skool
    discover_coaches := fun _ _ => .ok []
    scrape_profile := fun pid => if pid == "grp" then .ok c1SkoolProfile else .error (.failure "404")
    scrape_content := fun _ => .ok []
    scrape_pricing := fun _ => .ok [] }

-- C2: a record whose only email evidence sits in its biography.
def c2CexFirst : ScrapedProfile :=
  { platform := .youtube, platform_id := "c2a", name := "ab", email := some "a@x.com" }

def c2CexSecond : ScrapedProfile :=
  { platform := .skool, platform_id := "c2b", name := "xy", bio := "a@x.com" }

-- C2 witness: a state holding one entity created with an email, and a new
-- record carrying the same email in different case.
def c2SeedRec : ScrapedProfile :=
  { platform := .youtube, platform_id := "c2s", name := "ab", email := some "a@x.com" }

def c2State : DedupState := List.foldl dedupStep ⟨[], [], []⟩ [c2SeedRec]

def c2MergeRec : ScrapedProfile :=
  { platform := .skool, platform_id := "c2m", name := "xy", email := some "A@X.com" }

-- C3: an entity whose primary record has only a member count.
def c3Prospect : EnrichedProspect :=
  { primary_profile :=
      { platform := .skool, platform_id := "c3", name := "ab", member_count := 100 } }

-- C4: the same platform key on the primary and on a secondary.
def c4Prospect : EnrichedProspect :=
  { primary_profile :=
      { platform := .youtube, platform_id := "c4a", name := "ab",
        social_links := [("instagram", "first")] }
    platform_profiles :=
      [{ platform := .skool, platform_id := "c4b", name := "cd",
         social_links := [("instagram", "second")] }] }

-- C5: equal websites up to the URL scheme.
def c5W1 : ScrapedProfile :=
  { platform := .youtube, platform_id := "c5a", name := "ab",
    website_url := some "http://x.com" }

def c5W2 : ScrapedProfile :=
  { platform := .skool, platform_id := "c5b", name := "xy",
    website_url := some "https://x.com" }

-- C5 witness: same website in different case (no scheme change).
def c5Seed : ScrapedProfile :=
  { platform := .youtube, platform_id := "c5s", name := "ab",
    website_url := some "http://x.com" }

def c5State : DedupState := List.foldl dedupStep ⟨[], [], []⟩ [c5Seed]

def c5MergeRec : ScrapedProfile :=
  { platform := .skool, platform_id := "c5m", name := "xy",
    website_url := some "HTTP://X.com" }

-- C6: two records whose names normalize to the empty string.
def c6Empty1 : ScrapedProfile := { platform := .youtube, platform_id := "c6a", name := " " }

def c6Empty2 : ScrapedProfile := { platform := .skool, platform_id := "c6b", name := "" }

def c6State : DedupState := List.foldl dedupStep ⟨[], [], []⟩ [c6Empty1]

-- C7 witness input.
def c7Rec : ScrapedProfile := { platform := .youtube, platform_id := "c7", name := "ab" }

-- C8: two email-less entities where the record omitted from
-- `total_followers` (the primary member count) decides the spec ranking.
def c8RecA : ScrapedProfile :=
  { platform := .skool, platform_id := "c8a", name := "ab",
    follower_count := 5, member_count := 100 }

def c8RecB : ScrapedProfile :=
  { platform := .youtube, platform_id := "c8b", name := "xy", follower_count := 10 }

def c8Adapter : PlatformAdapter :=
  { platform := .skool
    discover_coaches := fun _ _ => .ok [c8RecA, c8RecB]
    scrape_profile := fun _ => .error .notImplemented
    scrape_content := fun _ => .error .notImplemented
    scrape_pricing := fun _ => .error .notImplemented }

-- ## Lemmas about the ranking sort

namespace DiscoveryOrchestrator

-- Descending pairwise order on the sort key: an earlier element is never
-- strictly below a later one.
def keyGeRel (a b : EnrichedProspect) : Prop := ¬ keyLt (keyNat a) (keyNat b)

theorem keyLt_asymm {a b : Nat × Nat} (h : keyLt a b) : ¬ keyLt b a := by
  rcases a with ⟨a1, a2⟩; rcases b with ⟨b1, b2⟩
  simp only [keyLt] at *
  omega

theorem keyLt_trans {a b c : Nat × Nat} (h1 : keyLt a b) (h2 : keyLt b c) : keyLt a c := by
  rcases a with ⟨a1, a2⟩; rcases b with ⟨b1, b2⟩; rcases c with ⟨c1, c2⟩
  simp only [keyLt] at *
  omega

theorem keyLt_ne {a b : Nat × Nat} (h : keyLt a b) : a ≠ b := by
  intro he
  subst he
  rcases a with ⟨a1, a2⟩
  simp only [keyLt] at h
  omega

theorem mem_insertDesc {x y : EnrichedProspect} {l : List EnrichedProspect} :
    y ∈ insertDesc x l ↔ y = x ∨ y ∈ l := by
  induction l with
  | nil =>
    show y ∈ [x] ↔ y = x ∨ y ∈ ([] : List EnrichedProspect)
    simp
  | cons z zs ih =>
    simp only [insertDesc]
    split
    · simp only [List.mem_cons]
    · simp only [List.mem_cons, ih]
      tauto

theorem pairwise_insertDesc (x : EnrichedProspect) (l : List EnrichedProspect)
    (h : List.Pairwise keyGeRel l) : List.Pairwise keyGeRel (insertDesc x l) := by
  induction l with
  | nil =>
    show List.Pairwise keyGeRel [x]
    simp
  | cons y ys ih =>
    rcases List.pairwise_cons.mp h with ⟨hy, hys⟩
    simp only [insertDesc]
    split
    · rename_i hlt
      refine List.pairwise_cons.mpr ⟨?_, h⟩
      intro z hz
      rcases List.mem_cons.mp hz with rfl | hz2
      · exact keyLt_asymm hlt
      · intro hxz
        exact hy z hz2 (keyLt_trans hlt hxz)
    · rename_i hnlt
      refine List.pairwise_cons.mpr ⟨?_, ih hys⟩
      intro z hz
      rcases mem_insertDesc.mp hz with rfl | hz2
      · exact hnlt
      · exact hy z hz2

theorem filter_insertDesc (k : Nat × Nat) (x : EnrichedProspect)
    (l : List EnrichedProspect) (h : List.Pairwise keyGeRel l) :
    (insertDesc x l).filter (fun p => decide (keyNat p = k)) =
      l.filter (fun p => decide (keyNat p = k)) ++ (if keyNat x = k then [x] else []) := by
  induction l with
  | nil =>
    simp only [insertDesc, List.filter_cons, List.filter_nil, List.nil_append]
    split <;> simp_all
  | cons y ys ih =>
    rcases List.pairwise_cons.mp h with ⟨hy, hys⟩
    simp only [insertDesc]
    split
    · rename_i hlt
      by_cases hk : keyNat x = k
      · have hnil : (y :: ys).filter (fun p => decide (keyNat p = k)) = [] := by
          apply List.filter_eq_nil_iff.mpr
          intro z hz
          simp only [decide_eq_true_eq]
          rcases List.mem_cons.mp hz with rfl | hz2
          · exact fun he => keyLt_ne hlt (he.trans hk.symm)
          · intro he
            exact hy z hz2 (by rw [show keyNat z = keyNat x from he.trans hk.symm]; exact hlt)
        rw [List.filter_cons, hnil]
        simp [hk]
      · rw [List.filter_cons]
        simp [hk]
    · rename_i hnlt
      rw [List.filter_cons, List.filter_cons, ih hys]
      split <;> simp

theorem sortByQualityDesc_foldl (l acc : List EnrichedProspect)
    (hacc : List.Pairwise keyGeRel acc) :
    List.Pairwise keyGeRel (l.foldl (fun a x => insertDesc x a) acc) ∧
    ∀ k, (l.foldl (fun a x => insertDesc x a) acc).filter (fun p => decide (keyNat p = k)) =
      acc.filter (fun p => decide (keyNat p = k)) ++ l.filter (fun p => decide (keyNat p = k)) := by
  induction l generalizing acc with
  | nil => simp [hacc]
  | cons x xs ih =>
    rcases ih (insertDesc x acc) (pairwise_insertDesc x acc hacc) with ⟨hp, hf⟩
    refine ⟨hp, ?_⟩
    intro k
    rw [List.foldl_cons] at *
    rw [hf k, filter_insertDesc k x acc hacc, List.filter_cons]
    split <;> simp_all

-- The sorted output is a stable descending reordering of its input.
theorem sortByQualityDesc_sorted_stable (l : List EnrichedProspect) :
    List.Pairwise keyGeRel (sortByQualityDesc l) ∧
    ∀ k, (sortByQualityDesc l).filter (fun p => decide (keyNat p = k)) =
      l.filter (fun p => decide (keyNat p = k)) := by
  rcases sortByQualityDesc_foldl l [] List.Pairwise.nil with ⟨hp, hf⟩
  exact ⟨hp, fun k => by simpa using hf k⟩

end DiscoveryOrchestrator

-- ## Lemmas about the dict model

theorem dictGet_cons_eq {kv : String × String} {rest : List (String × String)}
    {k : String} (h : kv.1 = k) : dictGet (kv :: rest) k = some kv.2 := by
  simp [dictGet, List.find?_cons, h]

theorem dictGet_cons_ne {kv : String × String} {rest : List (String × String)}
    {k : String} (h : kv.1 ≠ k) : dictGet (kv :: rest) k = dictGet rest k := by
  simp [dictGet, List.find?_cons, h]

theorem dictGet_dictInsert (d : List (String × String)) (k2 v k : String) :
    dictGet (dictInsert d k2 v) k = if k2 = k then some v else dictGet d k := by
  induction d with
  | nil =>
    show dictGet [(k2, v)] k = if k2 = k then some v else dictGet [] k
    by_cases hk : k2 = k
    · rw [dictGet_cons_eq (show ((k2, v)).1 = k from hk), if_pos hk]
    · rw [dictGet_cons_ne (show ((k2, v)).1 ≠ k from hk), if_neg hk]
  | cons kv rest ih =>
    by_cases h1 : kv.1 = k2
    · simp only [dictInsert, if_pos h1]
      by_cases hk : k2 = k
      · rw [dictGet_cons_eq (show (k2, v).1 = k from hk), if_pos hk]
      · rw [dictGet_cons_ne (show (k2, v).1 ≠ k from hk), if_neg hk,
          dictGet_cons_ne (show kv.1 ≠ k from h1 ▸ hk)]
  -- `h1 ▸ hk`: kv.1 = k2 and k2 ≠ k give kv.1 ≠ k
    · simp only [dictInsert, if_neg h1]
      by_cases hk2 : kv.1 = k
      · have hne : k2 ≠ k := fun he => h1 (hk2.trans he.symm)
        rw [dictGet_cons_eq hk2, if_neg hne, dictGet_cons_eq hk2]
      · rw [dictGet_cons_ne hk2, ih, dictGet_cons_ne hk2]

theorem dictGet_dictUpdate (d src : List (String × String)) (k : String) :
    dictGet (dictUpdate d src) k =
      match lastVal src k with
      | some v => some v
      | none => dictGet d k := by
  induction src generalizing d with
  | nil => rfl
  | cons kv rest ih =>
    show dictGet (dictUpdate (dictInsert d kv.1 kv.2) rest) k = _
    rw [ih, dictGet_dictInsert]
    simp only [lastVal]
    cases hL : lastVal rest k
    · by_cases h : kv.1 = k <;> simp [h]
    · simp

-- ## Lemmas about the fuzzy-name ratio on empty names

theorem matchTotal_nil_left (b : List Char) : matchTotal [] b = 0 := rfl

theorem ratioGeThreshold_empty_left (b : String) :
    ratioGeThreshold "" b = true ↔ b = "" := by
  cases b with
  | mk bdata =>
    cases bdata with
    | nil => decide
    | cons c cs =>
      have h1 : ratioGeThreshold "" (String.mk (c :: cs)) = false := by
        have h0 : matchTotal ("" : String).data (String.mk (c :: cs)).data = 0 := rfl
        simp only [ratioGeThreshold, h0, decide_eq_false_iff_not]
        show ¬ 17 * (("" : String).data.length + (c :: cs).length) ≤ 40 * 0
        have : ("" : String).data.length = 0 := rfl
        simp only [this, List.length_cons]
        omega
      rw [h1]
      constructor
      · intro h
        exact absurd h (by decide)
      · intro h
        exact absurd (congrArg String.data h) (by simp)

namespace DiscoveryOrchestrator

theorem find_fuzzy_empty (ps : List EnrichedProspect) :
    (find_fuzzy_name_match_idx ps "").isSome =
      ps.any (fun p => decide (pyStrip (pyLower p.primary_profile.name) = "")) := by
  induction ps with
  | nil => rfl
  | cons p rest ih =>
    simp only [find_fuzzy_name_match_idx, List.any_cons]
    by_cases h : pyStrip (pyLower p.primary_profile.name) = ""
    · rw [if_pos ((ratioGeThreshold_empty_left _).mpr h)]
      simp [h]
    · rw [if_neg (fun hr => h ((ratioGeThreshold_empty_left _).mp hr))]
      rw [show (decide (pyStrip (pyLower p.primary_profile.name) = "")) = false by simp [h]]
      cases hf : find_fuzzy_name_match_idx rest "" <;> simp_all

end DiscoveryOrchestrator

-- ## The record multiset of an entity list

namespace DiscoveryOrchestrator

theorem allRecords_cons (p : EnrichedProspect) (ps : List EnrichedProspect) :
    allRecords (p :: ps) = ↑(recordsOf p) + allRecords ps := by
  simp [allRecords]

theorem allRecords_append (ps qs : List EnrichedProspect) :
    allRecords (ps ++ qs) = allRecords ps + allRecords qs := by
  simp [allRecords]

theorem recordsOf_addSecondary (p : EnrichedProspect) (r : ScrapedProfile) :
    (↑(recordsOf { p with platform_profiles := p.platform_profiles ++ [r] }) :
      Multiset ScrapedProfile) = ↑(recordsOf p) + {r} := by
  show (↑(p.primary_profile :: (p.platform_profiles ++ [r])) : Multiset ScrapedProfile)
    = ↑(p.primary_profile :: p.platform_profiles) + {r}
  rw [← List.cons_append, ← Multiset.coe_singleton r, Multiset.coe_add]

theorem recordsOf_fuzzyApply (pr : ScrapedProfile) (p : EnrichedProspect) :
    (↑(recordsOf (fuzzyApply pr p)) : Multiset ScrapedProfile) = ↑(recordsOf p) + {pr} := by
  unfold fuzzyApply
  split
  · exact recordsOf_addSecondary p pr
  · exact recordsOf_addSecondary p pr

theorem mergeIntoExisting_length (ps : List EnrichedProspect) (pr : ScrapedProfile)
    (b : Bool) (v : String) : (mergeIntoExisting ps pr b v).length = ps.length := by
  induction ps with
  | nil => rfl
  | cons p rest ih =>
    simp only [mergeIntoExisting]
    split
    · simp
    · simp [ih]

theorem allRecords_mergeIntoExisting (ps : List EnrichedProspect) (pr : ScrapedProfile)
    (b : Bool) (v : String) (h : ∃ p ∈ ps, mergeCond b p v = true) :
    allRecords (mergeIntoExisting ps pr b v) = allRecords ps + {pr} := by
  induction ps with
  | nil => rcases h with ⟨p, hp, _⟩; cases hp
  | cons p rest ih =>
    simp only [mergeIntoExisting]
    split
    · rw [allRecords_cons, allRecords_cons, recordsOf_addSecondary]
      abel
    · rename_i hc
      have h2 : ∃ q ∈ rest, mergeCond b q v = true := by
        rcases h with ⟨q, hq, hcond⟩
        rcases List.mem_cons.mp hq with rfl | hq2
        · exact absurd hcond hc
        · exact ⟨q, hq2, hcond⟩
      rw [allRecords_cons, allRecords_cons, ih h2]
      abel

theorem exists_pres_mergeIntoExisting (C : EnrichedProspect → Bool)
    (hC : ∀ q r, C q = true →
      C { q with platform_profiles := q.platform_profiles ++ [r] } = true)
    (ps : List EnrichedProspect) (pr : ScrapedProfile) (b : Bool) (v : String)
    (h : ∃ p ∈ ps, C p = true) :
    ∃ p ∈ mergeIntoExisting ps pr b v, C p = true := by
  induction ps with
  | nil => rcases h with ⟨p, hp, _⟩; cases hp
  | cons p rest ih =>
    simp only [mergeIntoExisting]
    split
    · rcases h with ⟨q, hq, hcq⟩
      rcases List.mem_cons.mp hq with rfl | hq2
      · exact ⟨_, List.mem_cons_self _ _, hC q pr hcq⟩
      · exact ⟨q, List.mem_cons_of_mem _ hq2, hcq⟩
    · rcases h with ⟨q, hq, hcq⟩
      rcases List.mem_cons.mp hq with rfl | hq2
      · exact ⟨q, List.mem_cons_self _ _, hcq⟩
      · rcases ih ⟨q, hq2, hcq⟩ with ⟨w, hw, hcw⟩
        exact ⟨w, List.mem_cons_of_mem _ hw, hcw⟩

theorem updateAt_length (ps : List EnrichedProspect) (i : Nat)
    (f : EnrichedProspect → EnrichedProspect) :
    (updateAt ps i f).length = ps.length := by
  induction ps generalizing i with
  | nil => rfl
  | cons p rest ih =>
    cases i with
    | zero => simp [updateAt]
    | succ n => simp [updateAt, ih]

theorem allRecords_updateAt (ps : List EnrichedProspect) (i : Nat)
    (f : EnrichedProspect → EnrichedProspect) (pr : ScrapedProfile)
    (hf : ∀ q, (↑(recordsOf (f q)) : Multiset ScrapedProfile) = ↑(recordsOf q) + {pr})
    (hi : i < ps.length) :
    allRecords (updateAt ps i f) = allRecords ps + {pr} := by
  induction ps generalizing i with
  | nil => exact absurd hi (Nat.not_lt_zero i)
  | cons p rest ih =>
    cases i with
    | zero =>
      show allRecords (f p :: rest) = _
      rw [allRecords_cons, allRecords_cons, hf p]
      abel
    | succ n =>
      show allRecords (p :: updateAt rest n f) = _
      rw [allRecords_cons, allRecords_cons, ih n (Nat.lt_of_succ_lt_succ hi)]
      abel

theorem exists_pres_updateAt (C : EnrichedProspect → Bool)
    (f : EnrichedProspect → EnrichedProspect)
    (hC : ∀ q, C q = true → C (f q) = true)
    (ps : List EnrichedProspect) (i : Nat)
    (h : ∃ p ∈ ps, C p = true) :
    ∃ p ∈ updateAt ps i f, C p = true := by
  induction ps generalizing i with
  | nil => rcases h with ⟨p, hp, _⟩; cases hp
  | cons p rest ih =>
    cases i with
    | zero =>
      show ∃ q ∈ f p :: rest, C q = true
      rcases h with ⟨q, hq, hcq⟩
      rcases List.mem_cons.mp hq with rfl | hq2
      · exact ⟨f q, List.mem_cons_self _ _, hC q hcq⟩
      · exact ⟨q, List.mem_cons_of_mem _ hq2, hcq⟩
    | succ n =>
      show ∃ q ∈ p :: updateAt rest n f, C q = true
      rcases h with ⟨q, hq, hcq⟩
      rcases List.mem_cons.mp hq with rfl | hq2
      · exact ⟨q, List.mem_cons_self _ _, hcq⟩
      · rcases ih n ⟨q, hq2, hcq⟩ with ⟨w, hw, hcw⟩
        exact ⟨w, List.mem_cons_of_mem _ hw, hcw⟩

theorem find_fuzzy_lt (ps : List EnrichedProspect) (nameKey : String) (i : Nat)
    (h : find_fuzzy_name_match_idx ps nameKey = some i) : i < ps.length := by
  induction ps generalizing i with
  | nil => cases h
  | cons p rest ih =>
    simp only [find_fuzzy_name_match_idx] at h
    split at h
    · cases h
      simp
    · cases hf : find_fuzzy_name_match_idx rest nameKey with
      | none => rw [hf] at h; cases h
      | some j =>
        rw [hf] at h
        simp only [Option.map_some'] at h
        cases h
        have := ih j hf
        simp only [List.length_cons]
        omega

end DiscoveryOrchestrator

-- ## State invariant of `_deduplicate_and_enrich`

namespace DiscoveryOrchestrator

theorem contains_mem {l : List String} {a : String} (h : l.contains a = true) : a ∈ l := by
  simpa [List.elem_iff] using h

theorem optTruthy_some {o : Option String} (h : optTruthy o = true) :
    ∃ s, o = some s ∧ (s != "") = true := by
  cases o with
  | none => cases h
  | some s => exact ⟨s, rfl, h⟩

theorem emailCond_addSecondary (p : EnrichedProspect) (r : ScrapedProfile) (v : String) :
    emailCond { p with platform_profiles := p.platform_profiles ++ [r] } v = emailCond p v := rfl

theorem urlCond_addSecondary (p : EnrichedProspect) (r : ScrapedProfile) (v : String)
    (h : urlCond p v = true) :
    urlCond { p with platform_profiles := p.platform_profiles ++ [r] } v = true := by
  unfold urlCond prospectUrls at h ⊢
  simp only [List.map_append, List.map_cons, List.map_nil, List.any_cons, List.any_append,
    List.any_nil, Bool.or_eq_true, Bool.or_false] at h ⊢
  tauto

theorem emailCond_truthy {p : EnrichedProspect} {v : String} (h : emailCond p v = true) :
    optTruthy p.email = true := by
  unfold emailCond at h
  cases he : p.email with
  | none => rw [he] at h; cases h
  | some e =>
    rw [he] at h
    have h2 : (e != "" && pyLower e == v) = true := h
    simp only [Bool.and_eq_true] at h2
    exact h2.1

theorem emailCond_fuzzyApply (pr : ScrapedProfile) (p : EnrichedProspect) (v : String)
    (h : emailCond p v = true) : emailCond (fuzzyApply pr p) v = true := by
  unfold fuzzyApply
  split
  · rename_i hcond
    rw [emailCond_truthy h] at hcond
    simp at hcond
  · exact h

theorem urlCond_fuzzyApply (pr : ScrapedProfile) (p : EnrichedProspect) (v : String)
    (h : urlCond p v = true) : urlCond (fuzzyApply pr p) v = true := by
  unfold fuzzyApply
  split
  · exact urlCond_addSecondary p pr v h
  · exact urlCond_addSecondary p pr v h

theorem StateInv_init : StateInv ⟨[], [], []⟩ := by
  constructor <;> intro x hx <;> cases hx

theorem StateInv_mergeIntoExisting (st : DedupState) (pr : ScrapedProfile)
    (b : Bool) (v : String) (hInv : StateInv st) :
    StateInv { st with prospects := mergeIntoExisting st.prospects pr b v } := by
  constructor
  · intro e he
    exact exists_pres_mergeIntoExisting (fun p => emailCond p e)
      (fun q r hq => hq)
      st.prospects pr b v (hInv.1 e he)
  · intro u hu
    exact exists_pres_mergeIntoExisting (fun p => urlCond p u)
      (fun q r hq => urlCond_addSecondary q r u hq)
      st.prospects pr b v (hInv.2 u hu)

theorem dedupStep_inv_records (st : DedupState) (profile : ScrapedProfile)
    (hInv : StateInv st) :
    StateInv (dedupStep st profile) ∧
    allRecords (dedupStep st profile).prospects = allRecords st.prospects + {profile} := by
  unfold dedupStep
  split
  · rename_i hcE
    rcases Bool.and_eq_true .. |>.mp hcE with ⟨_, hcont⟩
    refine ⟨StateInv_mergeIntoExisting st profile true _ hInv, ?_⟩
    exact allRecords_mergeIntoExisting st.prospects profile true _
      (hInv.1 _ (contains_mem hcont))
  · split
    · rename_i hcU
      rcases Bool.and_eq_true .. |>.mp hcU with ⟨_, hcont⟩
      refine ⟨StateInv_mergeIntoExisting st profile false _ hInv, ?_⟩
      exact allRecords_mergeIntoExisting st.prospects profile false _
        (hInv.2 _ (contains_mem hcont))
    · split
      · rename_i i hf
        constructor
        · constructor
          · intro e he
            exact exists_pres_updateAt (fun p => emailCond p e) (fuzzyApply profile)
              (fun q hq => emailCond_fuzzyApply profile q e hq)
              st.prospects i (hInv.1 e he)
          · intro u hu
            exact exists_pres_updateAt (fun p => urlCond p u) (fuzzyApply profile)
              (fun q hq => urlCond_fuzzyApply profile q u hq)
              st.prospects i (hInv.2 u hu)
        · exact allRecords_updateAt st.prospects i (fuzzyApply profile) profile
            (recordsOf_fuzzyApply profile) (find_fuzzy_lt st.prospects _ i hf)
      · constructor
        · constructor
          · intro e he
            by_cases hT : optTruthy profile.email = true
            · rw [if_pos hT] at he
              rcases List.mem_append.mp he with hold | hnew
              · rcases hInv.1 e hold with ⟨p, hp, hc⟩
                exact ⟨p, List.mem_append_left _ hp, hc⟩
              · refine ⟨newProspect profile, List.mem_append_right _ (by simp), ?_⟩
                rcases optTruthy_some hT with ⟨s, hs, hs2⟩
                rcases List.mem_singleton.mp hnew with rfl
                show emailCond (newProspect profile) (pyLower (profile.email.getD "")) = true
                unfold emailCond newProspect
                rw [hs]
                simp [hs2]
            · rw [if_neg hT] at he
              rcases hInv.1 e he with ⟨p, hp, hc⟩
              exact ⟨p, List.mem_append_left _ hp, hc⟩
          · intro u hu
            by_cases hW : (pyOr profile.website_url "" != "") = true
            · rw [if_pos hW] at hu
              rcases List.mem_append.mp hu with hold | hnew
              · rcases hInv.2 u hold with ⟨p, hp, hc⟩
                exact ⟨p, List.mem_append_left _ hp, hc⟩
              · refine ⟨newProspect profile, List.mem_append_right _ (by simp), ?_⟩
                rcases List.mem_singleton.mp hnew with rfl
                show urlCond (newProspect profile) (pyLower (pyOr profile.website_url "")) = true
                unfold urlCond prospectUrls newProspect
                simp [hW]
            · rw [if_neg hW] at hu
              rcases hInv.2 u hu with ⟨p, hp, hc⟩
              exact ⟨p, List.mem_append_left _ hp, hc⟩
        · rw [allRecords_append]
          have h1 : allRecords [newProspect profile] = {profile} := by
            simp [allRecords, recordsOf, newProspect]
          rw [h1]

theorem dedup_fold (profiles : List ScrapedProfile) (st : DedupState) (hInv : StateInv st) :
    StateInv (profiles.foldl dedupStep st) ∧
    allRecords (profiles.foldl dedupStep st).prospects
      = allRecords st.prospects + ↑profiles := by
  induction profiles generalizing st with
  | nil =>
    refine ⟨hInv, ?_⟩
    show allRecords st.prospects = allRecords st.prospects + ↑([] : List ScrapedProfile)
    simp
  | cons pr rest ih =>
    rcases dedupStep_inv_records st pr hInv with ⟨h1, h2⟩
    rcases ih (dedupStep st pr) h1 with ⟨h3, h4⟩
    refine ⟨h3, ?_⟩
    show allRecords ((rest.foldl dedupStep (dedupStep st pr)).prospects) = _
    rw [h4, h2, add_assoc, Multiset.singleton_add, Multiset.cons_coe]

end DiscoveryOrchestrator

-- ## The fetch trace of the Enrichment Walker

namespace DiscoveryOrchestrator

theorem enrich_foldl_trace (registry : List (Platform × PlatformAdapter))
    (links : List (String × String)) (st : EnrichedProspect × List (String × String)) :
    (links.foldl (enrichStep registry) st).2 =
      st.2 ++ links.filterMap (fun kv =>
        match findAdapterByName registry kv.1 with
        | some _ => some (kv.1, extractPlatformId kv.2)
        | none => none) := by
  induction links generalizing st with
  | nil => simp
  | cons kv rest ih =>
    rw [List.foldl_cons, ih, List.filterMap_cons]
    unfold enrichStep
    cases hA : findAdapterByName registry kv.1 with
    | none => simp
    | some adapter =>
      cases hp : adapter.scrape_profile (extractPlatformId kv.2) with
      | error e => simp [hp]
      | ok profile =>
        cases hc : adapter.scrape_content (extractPlatformId kv.2) with
        | error e => simp [hp, hc]
        | ok content =>
          cases hpr : adapter.scrape_pricing (extractPlatformId kv.2) with
          | error e => simp [hp, hc, hpr]
          | ok pricing => simp [hp, hc, hpr]

end DiscoveryOrchestrator

-- ## Helper: lookup characterization of the merged social-reference map

theorem socialLinks_foldl (profiles : List ScrapedProfile)
    (d : List (String × String)) (k : String) :
    dictGet (profiles.foldl (fun merged q => dictUpdate merged q.social_links) d) k =
      profiles.foldl
        (fun acc q =>
          match lastVal q.social_links k with
          | some v => some v
          | none => acc) (dictGet d k) := by
  induction profiles generalizing d with
  | nil => rfl
  | cons q rest ih =>
    rw [List.foldl_cons, List.foldl_cons, ih, dictGet_dictUpdate]


-- ## Claim theorems

/-- C1: the spec says that in a batch discovery run, after deduplication and
before ranking, the Enrichment Walker fetches and merges a secondary
SourceRecord for every social reference with a registered adapter.  The
batch entry point `discover` never invokes `_cross_platform_enrich`: with a
YouTube profile referencing a registered Skool adapter, the returned entity
has no secondary records at all, although running the walker on that very
entity would fetch and merge the Skool record.  This contradicts the
orchestrator docstrings ("Deduplicate and enrich", "enriches profiles by
following cross-platform links"), so the code, not the spec, is at fault. -/
theorem C1_discover_never_enriches :
    DiscoveryOrchestrator.discover [c1AdYoutube, c1AdSkool] ["q"] none 50
      = Except.ok [DiscoveryOrchestrator.newProspect c1YtProfile] ∧
    (DiscoveryOrchestrator.newProspect c1YtProfile).platform_profiles = [] ∧
    (DiscoveryOrchestrator.cross_platform_enrich
        (DiscoveryOrchestrator.buildRegistry [c1AdYoutube, c1AdSkool])
        (DiscoveryOrchestrator.newProspect c1YtProfile)).platform_profiles
      = [c1SkoolProfile] := by
  refine ⟨by rfl, rfl, by rfl⟩

/-- C2 counterexample: the second record carries no email field, its
biography default-extracts exactly the resolved email of the existing
entity, yet the resolver creates a second entity instead of merging under
the email rule — `_deduplicate_and_enrich` never calls `extract_email`. -/
theorem C2_counterexample :
    PlatformAdapter.extract_email c2CexSecond = some "a@x.com" ∧
    c2CexSecond.email = none ∧
    (DiscoveryOrchestrator.deduplicate_and_enrich [c2CexFirst, c2CexSecond]).map
        EnrichedProspect.email = [some "a@x.com", none] ∧
    (DiscoveryOrchestrator.deduplicate_and_enrich [c2CexFirst, c2CexSecond]).length = 2 := by
  refine ⟨by decide, by decide, by decide, by decide⟩

/-- C2 amended: when the new record itself carries a truthy email whose
lowercase form is in the run's seen-email set (emails recorded at entity
creation), the email rule — evaluated before the website and fuzzy-name
rules — merges the record into an existing entity as one more secondary:
the entity count is unchanged and the record is placed exactly once.
Biography extraction is not consulted during batch deduplication. -/
theorem C2_email_rule (st : DiscoveryOrchestrator.DedupState) (profile : ScrapedProfile)
    (hInv : DiscoveryOrchestrator.StateInv st)
    (hT : optTruthy profile.email = true)
    (hSeen : st.seenEmails.contains (pyLower (profile.email.getD "")) = true) :
    (DiscoveryOrchestrator.dedupStep st profile).prospects.length = st.prospects.length ∧
    DiscoveryOrchestrator.allRecords (DiscoveryOrchestrator.dedupStep st profile).prospects
      = DiscoveryOrchestrator.allRecords st.prospects + {profile} := by
  have hcond : (optTruthy profile.email
      && st.seenEmails.contains (pyLower (profile.email.getD ""))) = true := by
    rw [hT, hSeen]
    rfl
  unfold DiscoveryOrchestrator.dedupStep
  rw [if_pos hcond]
  exact ⟨DiscoveryOrchestrator.mergeIntoExisting_length st.prospects profile true _,
    DiscoveryOrchestrator.allRecords_mergeIntoExisting st.prospects profile true _
      (hInv.1 _ (DiscoveryOrchestrator.contains_mem hSeen))⟩

/-- Witness for C2: a state with one entity created with email `a@x.com`
and a new record with email `A@X.com`; all hypotheses hold and the email
rule merges without creating an entity. -/
theorem C2_email_rule_witness :
    DiscoveryOrchestrator.StateInv c2State ∧
    optTruthy c2MergeRec.email = true ∧
    c2State.seenEmails.contains (pyLower (c2MergeRec.email.getD "")) = true ∧
    ((DiscoveryOrchestrator.dedupStep c2State c2MergeRec).prospects.length
        = c2State.prospects.length ∧
      DiscoveryOrchestrator.allRecords
          (DiscoveryOrchestrator.dedupStep c2State c2MergeRec).prospects
        = DiscoveryOrchestrator.allRecords c2State.prospects + {c2MergeRec}) :=
  ⟨by decide, by decide, by decide,
    C2_email_rule c2State c2MergeRec (by decide) (by decide) (by decide)⟩

/-- C3: the spec defines the resolved audience size as the sum of
follower, subscriber and member counts over all merged records, and the
`total_followers` docstring says "Sum followers across all platforms"; but
the implementation adds `member_count` only for secondary profiles and
omits the primary profile's member count: an entity whose primary record
has 100 members reports audience 0. -/
theorem C3_total_followers_drops_primary_members :
    EnrichedProspect.total_followers c3Prospect = 0 ∧
    specResolvedAudienceSize c3Prospect = 100 := by
  refine ⟨by decide, by decide⟩

/-- C4 counterexample: the primary record maps `instagram` to `first` and
a later secondary maps it to `second`; the resolved social-reference map
returns `second` — `dict.update` lets the latest merge win the collision,
not the earliest record. -/
theorem C4_counterexample :
    dictGet (EnrichedProspect.social_links c4Prospect) "instagram" = some "second" ∧
    ("second" : String) ≠ "first" := by
  refine ⟨by decide, by decide⟩

/-- C4 amended: the resolved social-reference map is the union of the maps
of all merged records (primary first, then secondaries in merge order),
and on a key collision the latest-recorded value wins: the lookup equals a
left fold in which each later record that defines the key overwrites the
accumulated value. -/
theorem C4_social_links_latest_wins (p : EnrichedProspect) (k : String) :
    dictGet (EnrichedProspect.social_links p) k =
      (p.primary_profile :: p.platform_profiles).foldl
        (fun acc q =>
          match lastVal q.social_links k with
          | some v => some v
          | none => acc) none := by
  have h := socialLinks_foldl (p.primary_profile :: p.platform_profiles) [] k
  rw [show dictGet [] k = none from rfl] at h
  exact h

/-- C5 counterexample: two records whose websites differ only in scheme
(`http://x.com` and `https://x.com`, equal after scheme normalization)
resolve to two entities — the website rule compares the raw lowercase
strings and performs no scheme normalization. -/
theorem C5_counterexample :
    specSchemeNormalize (pyOr c5W1.website_url "")
      = specSchemeNormalize (pyOr c5W2.website_url "") ∧
    c5W1.email = none ∧ c5W2.email = none ∧
    (DiscoveryOrchestrator.deduplicate_and_enrich [c5W1, c5W2]).length = 2 := by
  refine ⟨by decide, by decide, by decide, by decide⟩

/-- C5 amended: when the email rule does not fire and the record carries a
truthy website whose lowercase form (no scheme normalization) is in the
run's seen-url set (websites recorded at entity creation), the website
rule merges the record into an existing entity — matched against the
primary and all secondary websites of each entity — without creating a
new entity, and the record is placed exactly once. -/
theorem C5_website_rule (st : DiscoveryOrchestrator.DedupState) (profile : ScrapedProfile)
    (hInv : DiscoveryOrchestrator.StateInv st)
    (hE : (optTruthy profile.email
        && st.seenEmails.contains (pyLower (profile.email.getD ""))) = false)
    (hW : (pyOr profile.website_url "" != "") = true)
    (hSeen : st.seenUrls.contains (pyLower (pyOr profile.website_url "")) = true) :
    (DiscoveryOrchestrator.dedupStep st profile).prospects.length = st.prospects.length ∧
    DiscoveryOrchestrator.allRecords (DiscoveryOrchestrator.dedupStep st profile).prospects
      = DiscoveryOrchestrator.allRecords st.prospects + {profile} := by
  have hcond : (pyOr profile.website_url "" != ""
      && st.seenUrls.contains (pyLower (pyOr profile.website_url ""))) = true := by
    rw [hW, hSeen]
    rfl
  unfold DiscoveryOrchestrator.dedupStep
  rw [if_neg (fun hcontr => by rw [hE] at hcontr; exact Bool.noConfusion hcontr),
    if_pos hcond]
  exact ⟨DiscoveryOrchestrator.mergeIntoExisting_length st.prospects profile false _,
    DiscoveryOrchestrator.allRecords_mergeIntoExisting st.prospects profile false _
      (hInv.2 _ (DiscoveryOrchestrator.contains_mem hSeen))⟩

/-- Witness for C5: a state with one entity created with website
`http://x.com` and a new email-less record with website `HTTP://X.com`. -/
theorem C5_website_rule_witness :
    DiscoveryOrchestrator.StateInv c5State ∧
    (optTruthy c5MergeRec.email
        && c5State.seenEmails.contains (pyLower (c5MergeRec.email.getD ""))) = false ∧
    (pyOr c5MergeRec.website_url "" != "") = true ∧
    c5State.seenUrls.contains (pyLower (pyOr c5MergeRec.website_url "")) = true ∧
    ((DiscoveryOrchestrator.dedupStep c5State c5MergeRec).prospects.length
        = c5State.prospects.length ∧
      DiscoveryOrchestrator.allRecords
          (DiscoveryOrchestrator.dedupStep c5State c5MergeRec).prospects
        = DiscoveryOrchestrator.allRecords c5State.prospects + {c5MergeRec}) :=
  ⟨by decide, by decide, by decide, by decide,
    C5_website_rule c5State c5MergeRec (by decide) (by decide) (by decide) (by decide)⟩

/-- C6 counterexample: two records whose display names normalize to the
empty string resolve to a single entity — `SequenceMatcher` gives two
empty strings ratio 1.0, so the empty-named record fuzzy-merges into the
empty-named entity instead of always creating a new one. -/
theorem C6_counterexample :
    pyStrip (pyLower c6Empty1.name) = "" ∧
    pyStrip (pyLower c6Empty2.name) = "" ∧
    c6Empty2.email = none ∧ c6Empty2.website_url = none ∧
    (DiscoveryOrchestrator.deduplicate_and_enrich [c6Empty1, c6Empty2]).length = 1 := by
  refine ⟨by decide, by decide, by decide, by decide, by decide⟩

/-- C6 amended: absent an email or website match, a record whose
normalized name is empty matches an existing entity exactly when some
entity's normalized primary name is also empty (the similarity ratio of
two empty strings is 1.0, and 0.0 against any non-empty name): it merges
into the first such entity, otherwise it creates a new entity; either way
the record is placed exactly once. -/
theorem C6_empty_name_rule (st : DiscoveryOrchestrator.DedupState) (profile : ScrapedProfile)
    (hE : (optTruthy profile.email
        && st.seenEmails.contains (pyLower (profile.email.getD ""))) = false)
    (hU : (pyOr profile.website_url "" != ""
        && st.seenUrls.contains (pyLower (pyOr profile.website_url ""))) = false)
    (hName : pyStrip (pyLower profile.name) = "") :
    (DiscoveryOrchestrator.dedupStep st profile).prospects.length =
      (if (st.prospects.any
          (fun p => decide (pyStrip (pyLower p.primary_profile.name) = ""))) = true
        then st.prospects.length else st.prospects.length + 1) ∧
    DiscoveryOrchestrator.allRecords (DiscoveryOrchestrator.dedupStep st profile).prospects
      = DiscoveryOrchestrator.allRecords st.prospects + {profile} := by
  unfold DiscoveryOrchestrator.dedupStep
  rw [if_neg (fun hc => by rw [hE] at hc; exact Bool.noConfusion hc),
    if_neg (fun hc => by rw [hU] at hc; exact Bool.noConfusion hc), hName]
  cases hf : DiscoveryOrchestrator.find_fuzzy_name_match_idx st.prospects "" with
  | some i =>
    have hany : st.prospects.any
        (fun p => decide (pyStrip (pyLower p.primary_profile.name) = "")) = true := by
      rw [← DiscoveryOrchestrator.find_fuzzy_empty, hf]
      rfl
    rw [if_pos hany]
    exact ⟨DiscoveryOrchestrator.updateAt_length st.prospects i _,
      DiscoveryOrchestrator.allRecords_updateAt st.prospects i _ profile
        (DiscoveryOrchestrator.recordsOf_fuzzyApply profile)
        (DiscoveryOrchestrator.find_fuzzy_lt st.prospects _ i hf)⟩
  | none =>
    have hany : st.prospects.any
        (fun p => decide (pyStrip (pyLower p.primary_profile.name) = "")) = false := by
      rw [← DiscoveryOrchestrator.find_fuzzy_empty, hf]
      rfl
    rw [hany, if_neg Bool.false_ne_true]
    constructor
    · show (st.prospects ++ [DiscoveryOrchestrator.newProspect profile]).length
        = st.prospects.length + 1
      simp
    · show DiscoveryOrchestrator.allRecords
          (st.prospects ++ [DiscoveryOrchestrator.newProspect profile])
        = DiscoveryOrchestrator.allRecords st.prospects + {profile}
      rw [DiscoveryOrchestrator.allRecords_append]
      have h1 : DiscoveryOrchestrator.allRecords
          [DiscoveryOrchestrator.newProspect profile] = {profile} := by
        simp [DiscoveryOrchestrator.allRecords, DiscoveryOrchestrator.recordsOf,
          DiscoveryOrchestrator.newProspect]
      rw [h1]

/-- Witness for C6: a state holding one entity whose primary name
normalizes to the empty string, and a new record with empty name and no
email or website: the entity count does not grow. -/
theorem C6_empty_name_rule_witness :
    (optTruthy c6Empty2.email
        && c6State.seenEmails.contains (pyLower (c6Empty2.email.getD ""))) = false ∧
    (pyOr c6Empty2.website_url "" != ""
        && c6State.seenUrls.contains (pyLower (pyOr c6Empty2.website_url ""))) = false ∧
    pyStrip (pyLower c6Empty2.name) = "" ∧
    ((DiscoveryOrchestrator.dedupStep c6State c6Empty2).prospects.length =
      (if (c6State.prospects.any
          (fun p => decide (pyStrip (pyLower p.primary_profile.name) = ""))) = true
        then c6State.prospects.length else c6State.prospects.length + 1) ∧
      DiscoveryOrchestrator.allRecords
          (DiscoveryOrchestrator.dedupStep c6State c6Empty2).prospects
        = DiscoveryOrchestrator.allRecords c6State.prospects + {c6Empty2}) :=
  ⟨by decide, by decide, by decide,
    C6_empty_name_rule c6State c6Empty2 (by decide) (by decide) (by decide)⟩

/-- C7: for every input sequence, every resolved entity holds at least one
record (its primary), and the records held across all entities — counted
with multiplicity — are exactly the input records: each processed record
lands in exactly one entity, never dropped and never duplicated. -/
theorem C7_records_partition (profiles : List ScrapedProfile) :
    DiscoveryOrchestrator.allRecords (DiscoveryOrchestrator.deduplicate_and_enrich profiles)
      = ↑profiles ∧
    ∀ p ∈ DiscoveryOrchestrator.deduplicate_and_enrich profiles,
      DiscoveryOrchestrator.recordsOf p ≠ [] := by
  have h := DiscoveryOrchestrator.dedup_fold profiles ⟨[], [], []⟩
    DiscoveryOrchestrator.StateInv_init
  constructor
  · have h2 := h.2
    show DiscoveryOrchestrator.allRecords
      (profiles.foldl DiscoveryOrchestrator.dedupStep ⟨[], [], []⟩).prospects = ↑profiles
    rw [h2]
    show DiscoveryOrchestrator.allRecords [] + ↑profiles = ↑profiles
    simp [DiscoveryOrchestrator.allRecords]
  · intro p _
    simp [DiscoveryOrchestrator.recordsOf]

/-- Witness for C7 at a concrete one-record input. -/
theorem C7_records_partition_witness :
    DiscoveryOrchestrator.allRecords (DiscoveryOrchestrator.deduplicate_and_enrich [c7Rec])
      = ↑[c7Rec] ∧
    ∀ p ∈ DiscoveryOrchestrator.deduplicate_and_enrich [c7Rec],
      DiscoveryOrchestrator.recordsOf p ≠ [] :=
  C7_records_partition [c7Rec]

/-- C8 counterexample: entity A (audience 105 by the spec definition,
including the primary member count; no email) ranks after entity B
(audience 10, no email), because the sort key uses `total_followers`,
which omits the primary member count and values A at 5 — the output is
not sorted by the spec's combined audience size. -/
theorem C8_counterexample :
    DiscoveryOrchestrator.discover [c8Adapter] ["q"] none 50
      = Except.ok [DiscoveryOrchestrator.newProspect c8RecB,
          DiscoveryOrchestrator.newProspect c8RecA] ∧
    specResolvedAudienceSize (DiscoveryOrchestrator.newProspect c8RecA)
      > specResolvedAudienceSize (DiscoveryOrchestrator.newProspect c8RecB) ∧
    (DiscoveryOrchestrator.newProspect c8RecA).email = none ∧
    (DiscoveryOrchestrator.newProspect c8RecB).email = none := by
  refine ⟨by rfl, by decide, rfl, rfl⟩

/-- C8 amended: the output of `discover` is the stable descending sort of
the deduplicated list by the composite key (has a resolved email,
`total_followers`) — where `total_followers` omits the primary member
count: entities with an email sort before all entities without one, larger
keys sort first, and for any key value the relative order of the entities
sharing it is their discovery order (the filter at every key is
unchanged by the sort). -/
theorem C8_rank_sorted_stable (adapters : List PlatformAdapter)
    (search_queries : List String) (platforms : Option (List String))
    (max_per_platform : Nat) :
    DiscoveryOrchestrator.discover adapters search_queries platforms max_per_platform =
      Except.ok (DiscoveryOrchestrator.sortByQualityDesc
        (DiscoveryOrchestrator.deduplicate_and_enrich
          (DiscoveryOrchestrator.gatherProfiles
            (DiscoveryOrchestrator.targetRegistry
              (DiscoveryOrchestrator.buildRegistry adapters) platforms)
            search_queries max_per_platform))) ∧
    ∀ l : List EnrichedProspect,
      List.Pairwise DiscoveryOrchestrator.keyGeRel
        (DiscoveryOrchestrator.sortByQualityDesc l) ∧
      ∀ k, (DiscoveryOrchestrator.sortByQualityDesc l).filter
          (fun p => decide (DiscoveryOrchestrator.keyNat p = k))
        = l.filter (fun p => decide (DiscoveryOrchestrator.keyNat p = k)) :=
  ⟨rfl, fun l => DiscoveryOrchestrator.sortByQualityDesc_sorted_stable l⟩

/-- C9 counterexample: with zero adapters registered and an empty
search-term set, `discover` returns the empty prospect list normally; it
does not fail with `InvalidInput` (no input validation exists in the
code). -/
theorem C9_counterexample :
    DiscoveryOrchestrator.discover [] [] none 50 = Except.ok [] ∧
    DiscoveryOrchestrator.discover [] [] none 50
      ≠ Except.error DiscoveryError.invalidInput := by
  have h : DiscoveryOrchestrator.discover [] [] none 50 = Except.ok [] := by rfl
  exact ⟨h, by rw [h]; simp⟩

/-- C9 amended: the resolution entry point never raises: for every input
it returns an `ok` prospect list, and with zero adapters registered it
returns the empty list (every per-adapter failure is caught inside the
loop; no `InvalidInput` check exists). -/
theorem C9_no_invalid_input (adapters : List PlatformAdapter)
    (search_queries : List String) (platforms : Option (List String))
    (max_per_platform : Nat) :
    (∃ ps, DiscoveryOrchestrator.discover adapters search_queries platforms
        max_per_platform = Except.ok ps) ∧
    DiscoveryOrchestrator.discover [] search_queries platforms max_per_platform
      = Except.ok [] := by
  constructor
  · exact ⟨_, rfl⟩
  · have h : DiscoveryOrchestrator.targetRegistry
        (DiscoveryOrchestrator.buildRegistry []) platforms = [] := by
      cases platforms <;>
        simp [DiscoveryOrchestrator.targetRegistry, DiscoveryOrchestrator.buildRegistry]
    show Except.ok (DiscoveryOrchestrator.sortByQualityDesc
        (DiscoveryOrchestrator.deduplicate_and_enrich
          (DiscoveryOrchestrator.gatherProfiles
            (DiscoveryOrchestrator.targetRegistry
              (DiscoveryOrchestrator.buildRegistry []) platforms)
            search_queries max_per_platform)))
      = Except.ok ([] : List EnrichedProspect)
    rw [h]
    rfl

/-- C10: enrichment traversal is exactly one hop — the fetches issued by
`_cross_platform_enrich` are fully determined by the social-reference map
of the prospect as it stood before the loop began (`social` is computed
once): the fetch trace equals that snapshot filtered to registered
adapters.  A reference present only on a record merged during enrichment
is therefore never itself fetched in the same run. -/
theorem C10_enrichment_one_hop (registry : List (Platform × PlatformAdapter))
    (prospect : EnrichedProspect) :
    (DiscoveryOrchestrator.cross_platform_enrichTr registry prospect).2 =
      (EnrichedProspect.social_links prospect).filterMap
        (fun kv =>
          match DiscoveryOrchestrator.findAdapterByName registry kv.1 with
          | some _ => some (kv.1, DiscoveryOrchestrator.extractPlatformId kv.2)
          | none => none) := by
  have h := DiscoveryOrchestrator.enrich_foldl_trace registry
    (EnrichedProspect.social_links prospect) (prospect, [])
  simpa [DiscoveryOrchestrator.cross_platform_enrichTr] using h
